import Mathlib

/-! EtherCAT CiA 402 controller: cyclic task and command hand-off.

A shallow embedding of `src/ethercatcontroller.cpp` / `src/ethercatcontroller.h`.

* The controller object is the record `EtherCatController`; member functions are
  pure functions returning the new record together with the ordered list of
  effects they performed (process-data writes, emitted Qt signals, queued
  invocations).
* The process-data buffer `domain_pd` is modelled by its four output PDO slots
  (`DomainPd`), addressed by name instead of byte offset.  The two inputs of a
  cycle (status word `0x6041`, actual position `0x6064`) are arguments of
  `cyclicTask`, since they are produced by the drive.
* `EC_WRITE_S32` and `EC_WRITE_U32` both store the 32-bit pattern of their
  argument (`toU32`); `EC_READ_S32` is `toS32`.
* The outcome of the calls into the EtherCAT master library during `initialize`
  is a parameter (`MasterApi`).
-/

namespace EtherCat

/-! ## Machine integers -/

/-- Bit pattern of a C `int` converted to `uint32_t` (what `EC_WRITE_U32` and
`EC_WRITE_S32` store). -/
def toU32 (v : Int) : Nat := (v % 4294967296).toNat

/-- Value of a 32-bit pattern read as `int32_t` (`EC_READ_S32`). -/
def toS32 (n : Nat) : Int :=
  if n % 4294967296 < 2147483648 then ((n % 4294967296 : Nat) : Int)
  else ((n % 4294967296 : Nat) : Int) - 4294967296

/-- Two's-complement wrap of an `int` result (used for `m_cycleCount++`). -/
def wrapInt (v : Int) : Int := (v + 2147483648) % 4294967296 - 2147483648

/-! ## Qt string helpers used by `cyclicTask` -/

/-- Left padding to a field width, as done by `QString::arg(value, fieldWidth, base, fillChar)`
for a positive field width. -/
def padLeft (fieldWidth : Nat) (fillChar : Char) (cs : List Char) : List Char :=
  List.replicate (fieldWidth - cs.length) fillChar ++ cs

/-- Result of `QString("0x%1").arg(status, 4, 16, QChar('0'))`: the marker `%1` is replaced by
the lowercase base-16 text of `status`, right-aligned in a field of width 4 filled with `'0'`. -/
def qArgHex4 (status : Nat) : String :=
  String.mk ('0' :: 'x' :: padLeft 4 '0' (Nat.toDigits 16 status))

/-- Result of `QString::toUpper`: every character of the string is upper-cased. -/
def qToUpper (s : String) : String := String.mk (s.data.map Char.toUpper)

/-- The string `statusHex` computed in `cyclicTask` (line 244). -/
def statusHex (status : Nat) : String := qToUpper (qArgHex4 status)

/-! ## Data model -/

/-- Output slots of the process-data buffer `domain_pd` (the receive PDO `0x1600`). -/
structure DomainPd where
  ctrl_word : Nat
  target_pos : Nat
  target_vel : Nat
  op_mode : Nat
deriving DecidableEq, Repr

/-- The signals declared in `ethercatcontroller.h`. -/
inductive Signal where
  | actualPositionChanged (position : Int)
  | statusWordChanged (statusWord : String)
  | statusMessageChanged (status : String)
  | connectedChanged (connected : Bool)
  | readyForCommandChanged (ready : Bool)
deriving DecidableEq, Repr

/-- A write into the process-data buffer. -/
inductive PdWrite where
  | ctrl_word (v : Nat)
  | target_pos (v : Nat)
  | target_vel (v : Nat)
  | op_mode (v : Nat)
deriving DecidableEq, Repr

/-- A call posted with `QMetaObject::invokeMethod(..., Qt::QueuedConnection)`. -/
inductive Queued where
  | setStatusMessage (msg : String)
  | updateActualPosition (position : Int)
  | updateStatusWord (statusWord : String)
deriving DecidableEq, Repr

/-- An observable effect of a member function, in program order. -/
inductive Effect where
  | write (w : PdWrite)
  | emit (s : Signal)
  | invoke (q : Queued)
deriving DecidableEq, Repr

/-- Fields of `class EtherCatController`.  Pointers are represented by whether they are
non-null; `pd` is the content of the buffer `domain_pd` points to. -/
structure EtherCatController where
  master : Bool
  domain : Bool
  slave_config : Bool
  domain_pd : Bool
  pd : DomainPd
  running : Bool
  m_actualPosition : Int
  m_statusWord : String
  m_statusMessage : String
  m_connected : Bool
  m_cycleCount : Int
  m_commandPending : Bool
  m_motionInProgress : Bool
  m_targetPosition : Int
  m_targetVelocity : Int
deriving DecidableEq, Repr

/-- The accessor `isReadyForCommand()` of the header. -/
def isReadyForCommand (c : EtherCatController) : Bool :=
  c.m_connected && !c.m_motionInProgress

/-- The constructor's member initialisers. -/
def construct : EtherCatController :=
  { master := false, domain := false, slave_config := false, domain_pd := false,
    pd := { ctrl_word := 0, target_pos := 0, target_vel := 0, op_mode := 0 },
    running := false, m_actualPosition := 0, m_statusWord := "0x0000",
    m_statusMessage := "Not initialized", m_connected := false, m_cycleCount := 0,
    m_commandPending := false, m_motionInProgress := false,
    m_targetPosition := 0, m_targetVelocity := 0 }

/-- A computation state: the controller and the effects performed so far. -/
abbrev M := EtherCatController × List Effect

/-- The write `EC_WRITE_U16(domain_pd + ctrl_word_offset, v)`. -/
def writeCtrlWord (v : Nat) (m : M) : M :=
  ({ m.1 with pd := { m.1.pd with ctrl_word := v } }, m.2 ++ [Effect.write (PdWrite.ctrl_word v)])

/-- The write `EC_WRITE_S32(domain_pd + target_pos_offset, v)`. -/
def writeTargetPos (v : Int) (m : M) : M :=
  ({ m.1 with pd := { m.1.pd with target_pos := toU32 v } },
    m.2 ++ [Effect.write (PdWrite.target_pos (toU32 v))])

/-- The write `EC_WRITE_U32(domain_pd + target_vel_offset, v)`. -/
def writeTargetVel (v : Int) (m : M) : M :=
  ({ m.1 with pd := { m.1.pd with target_vel := toU32 v } },
    m.2 ++ [Effect.write (PdWrite.target_vel (toU32 v))])

/-- The write `EC_WRITE_U8(domain_pd + op_mode_offset, v)`. -/
def writeOpMode (v : Nat) (m : M) : M :=
  ({ m.1 with pd := { m.1.pd with op_mode := v } }, m.2 ++ [Effect.write (PdWrite.op_mode v)])

/-- The statement `emit sig`. -/
def emitSignal (s : Signal) (m : M) : M := (m.1, m.2 ++ [Effect.emit s])

/-- The call `QMetaObject::invokeMethod(this, q, Qt::QueuedConnection)`. -/
def invokeQueued (q : Queued) (m : M) : M := (m.1, m.2 ++ [Effect.invoke q])

/-! ## Member functions -/

/-- The member function `EtherCatController::setStatusMessage`: stores and emits unconditionally. -/
def setStatusMessage (msg : String) (m : M) : M :=
  emitSignal (Signal.statusMessageChanged msg) ({ m.1 with m_statusMessage := msg }, m.2)

/-- The member function `EtherCatController::updateActualPosition`. -/
def updateActualPosition (position : Int) (m : M) : M :=
  if position ≠ m.1.m_actualPosition then
    emitSignal (Signal.actualPositionChanged position)
      ({ m.1 with m_actualPosition := position }, m.2)
  else m

/-- The member function `EtherCatController::updateStatusWord`. -/
def updateStatusWord (statusWord : String) (m : M) : M :=
  if statusWord ≠ m.1.m_statusWord then
    emitSignal (Signal.statusWordChanged statusWord)
      ({ m.1 with m_statusWord := statusWord }, m.2)
  else m

/-- Outcome of each call into the EtherCAT master library made by `initialize`
(`true` = the call succeeded). -/
structure MasterApi where
  request_master : Bool
  create_domain : Bool
  slave_config : Bool
  config_pdos : Bool
  reg_pdo_entry_list : Bool
  activate : Bool
  domain_data : Bool
deriving DecidableEq, Repr

/-- The member function `EtherCatController::initialize` (the name is reserved in Lean);
the Boolean is its return value. -/
def initialise (api : MasterApi) (c : EtherCatController) : M × Bool :=
  let m0 : M := setStatusMessage "Initializing EtherCAT..." (c, [])
  let m1 : M := ({ m0.1 with master := api.request_master }, m0.2)
  if !api.request_master then (setStatusMessage "Failed to request master" m1, false) else
  let m2 : M := ({ m1.1 with domain := api.create_domain }, m1.2)
  if !api.create_domain then (setStatusMessage "Failed to create domain" m2, false) else
  let m3 : M := ({ m2.1 with slave_config := api.slave_config }, m2.2)
  if !api.slave_config then (setStatusMessage "Failed to configure slave" m3, false) else
  if !api.config_pdos then (setStatusMessage "Failed to configure PDOs" m3, false) else
  if !api.reg_pdo_entry_list then
    (setStatusMessage "Failed to register PDO entries" m3, false) else
  if !api.activate then (setStatusMessage "Failed to activate master" m3, false) else
  let m4 : M := ({ m3.1 with domain_pd := api.domain_data }, m3.2)
  if !api.domain_data then
    (setStatusMessage "Failed to get domain process data" m4, false) else
  let m5 : M := setStatusMessage "EtherCAT initialized successfully" m4
  let m6 : M := emitSignal (Signal.connectedChanged true) ({ m5.1 with m_connected := true }, m5.2)
  (({ m6.1 with running := true }, m6.2), true)

/-- The member function `EtherCatController::moveToPosition`. -/
def moveToPosition (position velocity : Int) (c : EtherCatController) : M :=
  if !c.m_connected then setStatusMessage "EtherCAT not connected" (c, []) else
  if c.m_motionInProgress then
    setStatusMessage
      "Motion in progress, wait for target reached before sending new command" (c, [])
  else
    let c1 : EtherCatController :=
      { c with m_targetPosition := position, m_targetVelocity := velocity,
               m_commandPending := true }
    if c1.m_motionInProgress then
      setStatusMessage
        ("Command queued: position " ++ toString position ++ ", velocity " ++
          toString velocity ++ " - will execute when current motion completes") (c1, [])
    else
      setStatusMessage
        ("Moving to position " ++ toString position ++ " at velocity " ++ toString velocity)
        (c1, [])

/-- Lines 216-237 of `cyclicTask`: target-reached handling. -/
def targetReachedStep (status : Nat) (m : M) : M :=
  if (status &&& (1 <<< 10)) ≠ 0 ∧ m.1.m_motionInProgress = true then
    let m1 : M := ({ m.1 with m_motionInProgress := false }, m.2)
    let m2 := emitSignal (Signal.readyForCommandChanged true) m1
    let m3 := writeCtrlWord 0x000F m2
    if m3.1.m_commandPending then
      invokeQueued (Queued.setStatusMessage "Target reached - executing pending command") m3
    else
      invokeQueued
        (Queued.setStatusMessage "Target position reached, ready for new command") m3
  else m

/-- Lines 262-281 of `cyclicTask`: the set-point dispatch. -/
def dispatchStep (m : M) : M :=
  if m.1.m_commandPending = true ∧ m.1.m_motionInProgress = false then
    let targetPos := m.1.m_targetPosition
    let targetVel := m.1.m_targetVelocity
    let m1 : M := ({ m.1 with m_commandPending := false }, m.2)
    let m2 := writeTargetPos targetPos m1
    let m3 := writeTargetVel targetVel m2
    let m4 := writeCtrlWord 0x004F m3
    let m5 := writeCtrlWord 0x005F m4
    ({ m5.1 with m_motionInProgress := true }, m5.2)
  else m

/-- Lines 249-282 of `cyclicTask`: the drive enablement state machine. -/
def stateMachineStep (status : Nat) (m : M) : M :=
  if status &&& 0x006F = 0x0040 then writeCtrlWord 0x0006 m
  else if status &&& 0x006F = 0x0021 then writeCtrlWord 0x0007 m
  else if status &&& 0x006F = 0x0023 then writeCtrlWord 0x000F m
  else if status &&& 0x006F = 0x0027 then
    let m1 := if m.1.m_cycleCount = 10 then writeOpMode 1 m else m
    dispatchStep m1
  else m

/-- The member function `EtherCatController::cyclicTask`, reading `status` and `position` from the buffer. -/
def cyclicTask (status : Nat) (position : Int) (c : EtherCatController) : M :=
  let m1 := targetReachedStep status (c, [])
  let m2 := invokeQueued (Queued.updateActualPosition position) m1
  let m3 := invokeQueued (Queued.updateStatusWord (statusHex status)) m2
  let m4 := stateMachineStep status m3
  ({ m4.1 with m_cycleCount := wrapInt (m4.1.m_cycleCount + 1) }, m4.2)

/-- The member function `EtherCatController::cleanup`. -/
def cleanup (c : EtherCatController) : M :=
  let m1 : M := if c.m_connected && c.domain_pd then writeCtrlWord 0x0007 (c, []) else (c, [])
  let m2 : M := ({ m1.1 with master := false, domain := false, slave_config := false,
                             domain_pd := false, m_connected := false }, m1.2)
  let m3 := emitSignal (Signal.connectedChanged false) m2
  setStatusMessage "EtherCAT disconnected" m3

/-- The member function `EtherCatController::shutdown`. -/
def shutdown (c : EtherCatController) : M :=
  cleanup (if c.running then { c with running := false } else c)

/-! ## Delivery of queued calls and whole cycles -/

/-- Execution of one queued call in the receiver's thread. -/
def runQueued (q : Queued) (m : M) : M :=
  match q with
  | Queued.setStatusMessage msg => setStatusMessage msg m
  | Queued.updateActualPosition position => updateActualPosition position m
  | Queued.updateStatusWord statusWord => updateStatusWord statusWord m

/-- The queued call posted by an effect, if it is one. -/
def Effect.asQueued : Effect → Option Queued
  | Effect.invoke q => some q
  | _ => none

/-- The queued calls of an effect list, in posting order. -/
def queuedOf (es : List Effect) : List Queued := es.filterMap Effect.asQueued

/-- Delivery of a list of queued calls, in order. -/
def deliver (qs : List Queued) (m : M) : M := qs.foldl (fun acc q => runQueued q acc) m

/-- One whole cycle: `cyclicTask` followed by the delivery of the calls it queued. -/
def cycle (status : Nat) (position : Int) (c : EtherCatController) : M :=
  let m := cyclicTask status position c
  deliver (queuedOf m.2) m

/-- The process-data write performed by an effect, if it is one. -/
def Effect.asWrite : Effect → Option PdWrite
  | Effect.write w => some w
  | _ => none

/-- The signal emitted by an effect, if it is one. -/
def Effect.asSignal : Effect → Option Signal
  | Effect.emit s => some s
  | _ => none

/-- The process-data writes of an effect list, in order. -/
def writesOf (es : List Effect) : List PdWrite := es.filterMap Effect.asWrite

/-- The signals emitted by an effect list, in order. -/
def signalsOf (es : List Effect) : List Signal := es.filterMap Effect.asSignal

/-- The value of a control-word write. -/
def PdWrite.asCtrl : PdWrite → Option Nat
  | PdWrite.ctrl_word v => some v
  | _ => none

/-- The value of a mode-of-operation write. -/
def PdWrite.asOpMode : PdWrite → Option Nat
  | PdWrite.op_mode v => some v
  | _ => none

/-- Whether a write goes to the target-position or target-velocity slot. -/
def PdWrite.isTarget : PdWrite → Bool
  | PdWrite.target_pos _ => true
  | PdWrite.target_vel _ => true
  | _ => false

/-- The control-word values written by an effect list, in order. -/
def ctrlWritesOf (es : List Effect) : List Nat := (writesOf es).filterMap PdWrite.asCtrl

/-- The mode-of-operation values written by an effect list, in order. -/
def opModeWritesOf (es : List Effect) : List Nat := (writesOf es).filterMap PdWrite.asOpMode

/-- The writes of an effect list to the target-position and target-velocity slots, in order. -/
def targetWritesOf (es : List Effect) : List PdWrite := (writesOf es).filter PdWrite.isTarget

/-! ## Runs: sequences of whole calls -/

/-- A whole call made on the controller after `initialize`: a `moveToPosition` from the caller
or one cycle of the real-time loop with the inputs it read. -/
inductive Op where
  | move (position velocity : Int)
  | cycle (status : Nat) (position : Int)
deriving DecidableEq, Repr

/-- One whole call, with the effects it performed. -/
def step (op : Op) (c : EtherCatController) : M :=
  match op with
  | Op.move position velocity => moveToPosition position velocity c
  | Op.cycle status position => cycle status position c

/-- A sequence of whole calls, with the effects performed, in order. -/
def runLog : List Op → EtherCatController → M
  | [], c => (c, [])
  | op :: ops, c =>
    let m := step op c
    let r := runLog ops m.1
    (r.1, m.2 ++ r.2)

/-- The controller after a sequence of whole calls. -/
def run (ops : List Op) (c : EtherCatController) : EtherCatController := (runLog ops c).1

/-- The controller states reachable from the constructed controller by a successful
`initialize` followed by whole `moveToPosition` calls and whole cycles. -/
def Reachable (c : EtherCatController) : Prop :=
  ∃ (api : MasterApi) (ops : List Op),
    (initialise api construct).2 = true ∧ c = run ops (initialise api construct).1.1

/-- The branch condition of the set-point dispatch (line 262) as evaluated by the cycle that
starts in `c` and reads `status`: the masked status is `0x27`, and after the target-reached
handling `m_commandPending` is true and `m_motionInProgress` is false. -/
def Dispatches (status : Nat) (c : EtherCatController) : Prop :=
  status &&& 0x006F = 0x0027 ∧
    (targetReachedStep status (c, [])).1.m_commandPending = true ∧
    (targetReachedStep status (c, [])).1.m_motionInProgress = false

/-- The cycle that starts in `c` and reads `status` observes target reached (bit 10) while a
motion is in progress, and so clears `m_motionInProgress` (lines 217-218). -/
def ClearsMotion (status : Nat) (c : EtherCatController) : Prop :=
  (status &&& (1 <<< 10)) ≠ 0 ∧ c.m_motionInProgress = true

/-- The status words read by the cycles of a run, in order. -/
def statusesOf : List Op → List Nat
  | [] => []
  | Op.move _ _ :: ops => statusesOf ops
  | Op.cycle status _ :: ops => status :: statusesOf ops

/-- A run made of whole cycles only, one per pair of inputs (status word, actual position). -/
def cycles (inputs : List (Nat × Int)) : List Op :=
  inputs.map (fun x => Op.cycle x.1 x.2)

/-- A master library whose calls all succeed. -/
def okApi : MasterApi :=
  { request_master := true, create_domain := true, slave_config := true, config_pdos := true,
    reg_pdo_entry_list := true, activate := true, domain_data := true }

/-- The controller after construction and a successful `initialize`. -/
def ready : EtherCatController := (initialise okApi construct).1.1

/-- The controller after `initialize`, `moveToPosition(1, 1)` and one cycle reading status
`0x0027`: a motion is in progress. -/
def busy : EtherCatController := run [Op.move 1 1, Op.cycle 0x0027 0] ready

end EtherCat

namespace EtherCat

/-! ## Basic facts -/

theorem toS32_toU32 (v : Int) (hlo : -2147483648 ≤ v) (hhi : v < 2147483648) :
    toS32 (toU32 v) = v := by
  unfold toS32 toU32
  have h1 : 0 ≤ v % 4294967296 := Int.emod_nonneg v (by norm_num)
  have h2 : v % 4294967296 < 4294967296 := Int.emod_lt_of_pos v (by norm_num)
  have h3 : (((v % 4294967296).toNat % 4294967296 : Nat) : Int) = v % 4294967296 := by
    omega
  split_ifs with h <;> omega

theorem writesOf_append (a b : List Effect) : writesOf (a ++ b) = writesOf a ++ writesOf b := by
  simp [writesOf]

theorem ctrlWritesOf_append (a b : List Effect) :
    ctrlWritesOf (a ++ b) = ctrlWritesOf a ++ ctrlWritesOf b := by
  simp [ctrlWritesOf, writesOf]

theorem opModeWritesOf_append (a b : List Effect) :
    opModeWritesOf (a ++ b) = opModeWritesOf a ++ opModeWritesOf b := by
  simp [opModeWritesOf, writesOf]

theorem targetWritesOf_append (a b : List Effect) :
    targetWritesOf (a ++ b) = targetWritesOf a ++ targetWritesOf b := by
  simp [targetWritesOf, writesOf]

theorem signalsOf_append (a b : List Effect) :
    signalsOf (a ++ b) = signalsOf a ++ signalsOf b := by
  simp [signalsOf]

/-- Running a queued call changes only the published fields and adds no write. -/
theorem runQueued_frame (q : Queued) (m : M) :
    (runQueued q m).1.m_connected = m.1.m_connected ∧
    (runQueued q m).1.m_cycleCount = m.1.m_cycleCount ∧
    (runQueued q m).1.m_commandPending = m.1.m_commandPending ∧
    (runQueued q m).1.m_motionInProgress = m.1.m_motionInProgress ∧
    (runQueued q m).1.m_targetPosition = m.1.m_targetPosition ∧
    (runQueued q m).1.m_targetVelocity = m.1.m_targetVelocity ∧
    (runQueued q m).1.pd = m.1.pd ∧
    writesOf (runQueued q m).2 = writesOf m.2 := by
  cases q with
  | setStatusMessage msg =>
    simp [runQueued, setStatusMessage, emitSignal, writesOf, Effect.asWrite]
  | updateActualPosition position =>
    simp only [runQueued, updateActualPosition]
    split_ifs <;> simp [emitSignal, writesOf, Effect.asWrite]
  | updateStatusWord statusWord =>
    simp only [runQueued, updateStatusWord]
    split_ifs <;> simp [emitSignal, writesOf, Effect.asWrite]

/-- Delivering queued calls changes only the published fields and adds no write. -/
theorem deliver_frame (qs : List Queued) (m : M) :
    (deliver qs m).1.m_connected = m.1.m_connected ∧
    (deliver qs m).1.m_cycleCount = m.1.m_cycleCount ∧
    (deliver qs m).1.m_commandPending = m.1.m_commandPending ∧
    (deliver qs m).1.m_motionInProgress = m.1.m_motionInProgress ∧
    (deliver qs m).1.m_targetPosition = m.1.m_targetPosition ∧
    (deliver qs m).1.m_targetVelocity = m.1.m_targetVelocity ∧
    (deliver qs m).1.pd = m.1.pd ∧
    writesOf (deliver qs m).2 = writesOf m.2 := by
  induction qs generalizing m with
  | nil => simp [deliver]
  | cons q qs ih =>
    have h := runQueued_frame q m
    have h2 := ih (runQueued q m)
    simp only [deliver, List.foldl_cons] at h2 ⊢
    obtain ⟨a1, a2, a3, a4, a5, a6, a7, a8⟩ := h
    obtain ⟨b1, b2, b3, b4, b5, b6, b7, b8⟩ := h2
    exact ⟨b1.trans a1, b2.trans a2, b3.trans a3, b4.trans a4, b5.trans a5, b6.trans a6,
      b7.trans a7, b8.trans a8⟩

end EtherCat

namespace EtherCat

/-! ## C1: `moveToPosition` while a motion is in progress -/

/-- C1 (claim as stated fails): on the connected controller `busy`, whose `m_motionInProgress`
is true, `moveToPosition(7, 9)` leaves `m_commandPending` false and the stored target at
`(1, 1)`; the request is not recorded. -/
theorem C1_request_not_recorded_while_motion :
    busy.m_connected = true ∧ busy.m_motionInProgress = true ∧
    (moveToPosition 7 9 busy).1.m_commandPending = false ∧
    (moveToPosition 7 9 busy).1.m_targetPosition = 1 ∧
    (moveToPosition 7 9 busy).1.m_targetVelocity = 1 := by
  decide

/-- C1 (amended): on a connected controller whose `m_motionInProgress` is true,
`moveToPosition(position, velocity)` is rejected: it only stores and emits the status message
"Motion in progress, ...", so `m_commandPending`, the stored target and the domain buffer are
unchanged and nothing is written to the domain buffer. -/
theorem C1_moveToPosition_rejected_while_motion (position velocity : Int)
    (c : EtherCatController) (hc : c.m_connected = true) (hm : c.m_motionInProgress = true) :
    moveToPosition position velocity c =
      ({ c with m_statusMessage :=
            "Motion in progress, wait for target reached before sending new command" },
       [Effect.emit (Signal.statusMessageChanged
            "Motion in progress, wait for target reached before sending new command")]) ∧
    (moveToPosition position velocity c).1.m_commandPending = c.m_commandPending ∧
    (moveToPosition position velocity c).1.m_targetPosition = c.m_targetPosition ∧
    (moveToPosition position velocity c).1.m_targetVelocity = c.m_targetVelocity ∧
    (moveToPosition position velocity c).1.m_motionInProgress = true ∧
    (moveToPosition position velocity c).1.pd = c.pd ∧
    writesOf (moveToPosition position velocity c).2 = [] := by
  simp [moveToPosition, hc, hm, setStatusMessage, emitSignal, writesOf, Effect.asWrite]

/-- C1 (amended), at the controller `busy` and the request `(7, 9)`. -/
theorem C1_moveToPosition_rejected_while_motion_witness :
    busy.m_connected = true ∧ busy.m_motionInProgress = true ∧
    (moveToPosition 7 9 busy).1.m_commandPending = busy.m_commandPending ∧
    writesOf (moveToPosition 7 9 busy).2 = [] :=
  ⟨by decide, by decide,
    (C1_moveToPosition_rejected_while_motion 7 9 busy (by decide) (by decide)).2.1,
    (C1_moveToPosition_rejected_while_motion 7 9 busy (by decide) (by decide)).2.2.2.2.2.2⟩

/-! ## C2: submit while idle, then one Operation-Enabled cycle -/

/-- C2: for 32-bit `p` and `v`, on a connected controller with `m_motionInProgress` false,
`moveToPosition(p, v)` followed by one `cyclicTask` whose status satisfies
`(status & 0x6F) = 0x27` writes `p` and `v` to the target-position and target-velocity slots,
then control word `0x004F` and then `0x005F` (the only control-word writes of the cycle),
clears `m_commandPending` and sets `m_motionInProgress`. -/
theorem C2_move_then_cycle_dispatches (p v : Int) (status : Nat) (position : Int)
    (c : EtherCatController)
    (hp : -2147483648 ≤ p ∧ p < 2147483648) (hv : -2147483648 ≤ v ∧ v < 2147483648)
    (hc : c.m_connected = true) (hm : c.m_motionInProgress = false)
    (hs : status &&& 0x006F = 0x0027) :
    writesOf (cyclicTask status position (moveToPosition p v c).1).2 =
      (if c.m_cycleCount = 10 then [PdWrite.op_mode 1] else []) ++
        [PdWrite.target_pos (toU32 p), PdWrite.target_vel (toU32 v),
         PdWrite.ctrl_word 0x004F, PdWrite.ctrl_word 0x005F] ∧
    ctrlWritesOf (cyclicTask status position (moveToPosition p v c).1).2 = [0x004F, 0x005F] ∧
    (cyclicTask status position (moveToPosition p v c).1).1.pd.target_pos = toU32 p ∧
    (cyclicTask status position (moveToPosition p v c).1).1.pd.target_vel = toU32 v ∧
    toS32 (cyclicTask status position (moveToPosition p v c).1).1.pd.target_pos = p ∧
    toS32 (cyclicTask status position (moveToPosition p v c).1).1.pd.target_vel = v ∧
    (cyclicTask status position (moveToPosition p v c).1).1.pd.ctrl_word = 0x005F ∧
    (cyclicTask status position (moveToPosition p v c).1).1.m_commandPending = false ∧
    (cyclicTask status position (moveToPosition p v c).1).1.m_motionInProgress = true := by
  have hP := toS32_toU32 p hp.1 hp.2
  have hV := toS32_toU32 v hv.1 hv.2
  by_cases h10 : c.m_cycleCount = 10 <;>
    simp [moveToPosition, hc, hm, setStatusMessage, emitSignal, cyclicTask, targetReachedStep,
      invokeQueued, stateMachineStep, hs, dispatchStep, writeOpMode, writeTargetPos,
      writeTargetVel, writeCtrlWord, writesOf, ctrlWritesOf, Effect.asWrite, PdWrite.asCtrl,
      h10, hP, hV]

/-- C2 at the request `moveToPosition(10000, 500)` on the initialised controller `ready`
with status word `0x0027`. -/
theorem C2_move_then_cycle_dispatches_witness :
    writesOf (cyclicTask 0x0027 0 (moveToPosition 10000 500 ready).1).2 =
      [PdWrite.target_pos 10000, PdWrite.target_vel 500,
       PdWrite.ctrl_word 0x004F, PdWrite.ctrl_word 0x005F] ∧
    (cyclicTask 0x0027 0 (moveToPosition 10000 500 ready).1).1.m_commandPending = false ∧
    (cyclicTask 0x0027 0 (moveToPosition 10000 500 ready).1).1.m_motionInProgress = true :=
  have h := C2_move_then_cycle_dispatches 10000 500 0x0027 0 ready (by decide) (by decide)
    (by decide) (by decide) (by decide)
  ⟨h.1, h.2.2.2.2.2.2.2.1, h.2.2.2.2.2.2.2.2⟩

end EtherCat

namespace EtherCat

/-! ## C4: the enablement transitions -/

/-- The control-word writes of one `cyclicTask` whose masked status selects one of the first
three rows of the transition table: the optional `0x000F` of the target-reached handling,
then the row's control word. -/
theorem cyclicTask_enable_rows (status : Nat) (position : Int) (c : EtherCatController)
    (w : Nat)
    (h : (status &&& 0x006F = 0x0040 ∧ w = 0x0006) ∨ (status &&& 0x006F = 0x0021 ∧ w = 0x0007) ∨
      (status &&& 0x006F = 0x0023 ∧ w = 0x000F)) :
    (cyclicTask status position c).1.pd.ctrl_word = w ∧
    ctrlWritesOf (cyclicTask status position c).2 =
      (if (status &&& (1 <<< 10)) ≠ 0 ∧ c.m_motionInProgress = true then [0x000F] else []) ++
        [w] := by
  rcases h with ⟨hs, rfl⟩ | ⟨hs, rfl⟩ | ⟨hs, rfl⟩ <;>
    by_cases ht : status &&& 1024 = 0 <;>
    by_cases hm : c.m_motionInProgress = true <;>
    by_cases hp : c.m_commandPending = true <;>
    simp [cyclicTask, targetReachedStep, invokeQueued, stateMachineStep, hs, writeCtrlWord,
      emitSignal, ctrlWritesOf, writesOf, Effect.asWrite, PdWrite.asCtrl, ht, hm, hp]

/-- C4: for every status word, actual position and controller state (so for every value of the
lifecycle flags and the cycle counter), the control word left in the domain buffer by one
`cyclicTask`, which is also the last control word written in that cycle, is `0x0006` when
`(status & 0x6F) = 0x40`, `0x0007` when it is `0x21` and `0x000F` when it is `0x23`; hence the
status sequence `0x0040, 0x0021, 0x0023` leaves `0x0006, 0x0007, 0x000F` in turn. -/
theorem C4_enable_sequence_control_words (status : Nat) (position : Int)
    (c : EtherCatController) :
    (status &&& 0x006F = 0x0040 →
      (cyclicTask status position c).1.pd.ctrl_word = 0x0006 ∧
      (ctrlWritesOf (cyclicTask status position c).2).getLast? = some 0x0006) ∧
    (status &&& 0x006F = 0x0021 →
      (cyclicTask status position c).1.pd.ctrl_word = 0x0007 ∧
      (ctrlWritesOf (cyclicTask status position c).2).getLast? = some 0x0007) ∧
    (status &&& 0x006F = 0x0023 →
      (cyclicTask status position c).1.pd.ctrl_word = 0x000F ∧
      (ctrlWritesOf (cyclicTask status position c).2).getLast? = some 0x000F) ∧
    (cyclicTask 0x0040 position c).1.pd.ctrl_word = 0x0006 ∧
    (cyclicTask 0x0021 position (cyclicTask 0x0040 position c).1).1.pd.ctrl_word = 0x0007 ∧
    (cyclicTask 0x0023 position
      (cyclicTask 0x0021 position (cyclicTask 0x0040 position c).1).1).1.pd.ctrl_word
        = 0x000F := by
  refine ⟨fun hs => ?_, fun hs => ?_, fun hs => ?_, ?_, ?_, ?_⟩
  · have h := cyclicTask_enable_rows status position c 0x0006 (Or.inl ⟨hs, rfl⟩)
    refine ⟨h.1, ?_⟩
    rw [h.2]; simp
  · have h := cyclicTask_enable_rows status position c 0x0007 (Or.inr (Or.inl ⟨hs, rfl⟩))
    refine ⟨h.1, ?_⟩
    rw [h.2]; simp
  · have h := cyclicTask_enable_rows status position c 0x000F (Or.inr (Or.inr ⟨hs, rfl⟩))
    refine ⟨h.1, ?_⟩
    rw [h.2]; simp
  · exact (cyclicTask_enable_rows 0x0040 position c 0x0006 (Or.inl ⟨by decide, rfl⟩)).1
  · exact (cyclicTask_enable_rows 0x0021 position _ 0x0007
      (Or.inr (Or.inl ⟨by decide, rfl⟩))).1
  · exact (cyclicTask_enable_rows 0x0023 position _ 0x000F
      (Or.inr (Or.inr ⟨by decide, rfl⟩))).1

/-- C4 at the initialised controller: the status words `0x0040`, `0x0021`, `0x0023` read in
three successive cycles leave the control words `0x0006`, `0x0007`, `0x000F`. -/
theorem C4_enable_sequence_control_words_witness :
    (cyclicTask 0x0040 0 ready).1.pd.ctrl_word = 0x0006 ∧
    (cyclicTask 0x0021 0 (cyclicTask 0x0040 0 ready).1).1.pd.ctrl_word = 0x0007 ∧
    (cyclicTask 0x0023 0
      (cyclicTask 0x0021 0 (cyclicTask 0x0040 0 ready).1).1).1.pd.ctrl_word = 0x000F ∧
    (cyclicTask 0x0440 0 busy).1.pd.ctrl_word = 0x0006 :=
  ⟨(C4_enable_sequence_control_words 0 0 ready).2.2.2.1,
    (C4_enable_sequence_control_words 0 0 ready).2.2.2.2.1,
    (C4_enable_sequence_control_words 0 0 ready).2.2.2.2.2,
    ((C4_enable_sequence_control_words 0x0440 0 busy).1 (by decide)).1⟩

/-! ## C5: masked status outside the table -/

/-- C5 (claim as stated fails): the status word `0x0400` has masked value `0`, outside the
table, yet the cycle reading it on the controller `busy` (motion in progress) writes control
word `0x000F`. -/
theorem C5_control_word_written_outside_table :
    (0x0400 &&& 0x006F) = 0 ∧ busy.m_motionInProgress = true ∧
    ctrlWritesOf (cyclicTask 0x0400 0 busy).2 = [0x000F] ∧
    (cyclicTask 0x0400 0 busy).1.pd.ctrl_word = 0x000F := by
  decide

/-- C5 (amended): in a `cyclicTask` whose masked status `(status & 0x6F)` is none of `0x40`,
`0x21`, `0x23`, `0x27`, the state machine writes no control word; the control-word writes of
the cycle are the single `0x000F` of the target-reached handling when status bit 10 is set
and `m_motionInProgress` is true, and none otherwise. -/
theorem C5_outside_table_only_target_reached_write (status : Nat) (position : Int)
    (c : EtherCatController)
    (h40 : status &&& 0x006F ≠ 0x0040) (h21 : status &&& 0x006F ≠ 0x0021)
    (h23 : status &&& 0x006F ≠ 0x0023) (h27 : status &&& 0x006F ≠ 0x0027) :
    ctrlWritesOf (cyclicTask status position c).2 =
      (if (status &&& (1 <<< 10)) ≠ 0 ∧ c.m_motionInProgress = true then [0x000F] else []) ∧
    ((status &&& (1 <<< 10)) = 0 ∨ c.m_motionInProgress = false →
      writesOf (cyclicTask status position c).2 = [] ∧
      (cyclicTask status position c).1.pd = c.pd) := by
  by_cases ht : status &&& 1024 = 0 <;>
    by_cases hm : c.m_motionInProgress = true <;>
    by_cases hp : c.m_commandPending = true <;>
    simp [cyclicTask, targetReachedStep, invokeQueued, stateMachineStep, h40, h21, h23, h27,
      writeCtrlWord, emitSignal, ctrlWritesOf, writesOf, Effect.asWrite, PdWrite.asCtrl, ht, hm,
      hp]

/-- C5 (amended) at status words `0x0008` (fault, no target reached) and `0x0400` on the
controller `busy`. -/
theorem C5_outside_table_only_target_reached_write_witness :
    ctrlWritesOf (cyclicTask 0x0008 0 busy).2 = [] ∧
    ctrlWritesOf (cyclicTask 0x0400 0 busy).2 = [0x000F] :=
  ⟨(C5_outside_table_only_target_reached_write 0x0008 0 busy (by decide) (by decide)
      (by decide) (by decide)).1,
   (C5_outside_table_only_target_reached_write 0x0400 0 busy (by decide) (by decide)
      (by decide) (by decide)).1⟩

/-! ## C8: the published status-word text -/

/-- C8 (the code diverges from the claim): `toUpper` is applied to the whole formatted text, so
for every status word the published text starts with `0X` (upper-case `X`); for status `0x27`
it is `"0X0027"`, not `"0x0027"`, while the text before `toUpper` is `"0x0027"` and the
constructor's initial text is `"0x0000"`. -/
theorem C8_statusHex_prefix_upper_cased (status : Nat) :
    (statusHex status).data.take 2 = ['0', 'X'] ∧
    statusHex 0x27 = "0X0027" ∧ statusHex 0x27 ≠ "0x0027" ∧
    qArgHex4 0x27 = "0x0027" ∧ construct.m_statusWord = "0x0000" ∧
    Effect.invoke (Queued.updateStatusWord "0X0027") ∈ (cyclicTask 0x27 0 ready).2 := by
  refine ⟨?_, by decide, by decide, by decide, by decide, by decide⟩
  simp [statusHex, qToUpper, qArgHex4]

end EtherCat

namespace EtherCat

/-! ## Step lemmas -/

/-- A successful `initialize` of the constructed controller yields the controller `ready`. -/
theorem initialise_ok (api : MasterApi) (h : (initialise api construct).2 = true) :
    (initialise api construct).1.1 = ready := by
  obtain ⟨a, b, c, d, e, f, g⟩ := api
  cases a <;> cases b <;> cases c <;> cases d <;> cases e <;> cases f <;> cases g <;>
    first
    | rfl
    | (exfalso; revert h; decide)

/-- What `moveToPosition` does to the control state. -/
theorem moveToPosition_frame (p v : Int) (c : EtherCatController) :
    (moveToPosition p v c).1.m_motionInProgress = c.m_motionInProgress ∧
    (moveToPosition p v c).1.m_connected = c.m_connected ∧
    (moveToPosition p v c).1.m_cycleCount = c.m_cycleCount ∧
    (moveToPosition p v c).1.pd = c.pd ∧
    writesOf (moveToPosition p v c).2 = [] := by
  by_cases hc : c.m_connected = true <;> by_cases hm : c.m_motionInProgress = true <;>
    simp [moveToPosition, hc, hm, setStatusMessage, emitSignal, writesOf, Effect.asWrite]

/-- An accepted `moveToPosition`: connected and no motion in progress. -/
theorem moveToPosition_accepted (p v : Int) (c : EtherCatController)
    (hc : c.m_connected = true) (hm : c.m_motionInProgress = false) :
    (moveToPosition p v c).1.m_commandPending = true ∧
    (moveToPosition p v c).1.m_targetPosition = p ∧
    (moveToPosition p v c).1.m_targetVelocity = v := by
  simp [moveToPosition, hc, hm, setStatusMessage, emitSignal]

/-- A rejected `moveToPosition`: not connected or a motion in progress. -/
theorem moveToPosition_rejected (p v : Int) (c : EtherCatController)
    (h : c.m_connected = false ∨ c.m_motionInProgress = true) :
    (moveToPosition p v c).1.m_commandPending = c.m_commandPending ∧
    (moveToPosition p v c).1.m_targetPosition = c.m_targetPosition ∧
    (moveToPosition p v c).1.m_targetVelocity = c.m_targetVelocity := by
  by_cases hc : c.m_connected = true <;> by_cases hm : c.m_motionInProgress = true <;>
    simp_all [moveToPosition, setStatusMessage, emitSignal]

/-- The masked status selects one row of the transition table or none. -/
theorem masked_cases (status : Nat) :
    status &&& 0x006F = 0x0040 ∨
    (status &&& 0x006F ≠ 0x0040 ∧ status &&& 0x006F = 0x0021) ∨
    (status &&& 0x006F ≠ 0x0040 ∧ status &&& 0x006F ≠ 0x0021 ∧ status &&& 0x006F = 0x0023) ∨
    (status &&& 0x006F ≠ 0x0040 ∧ status &&& 0x006F ≠ 0x0021 ∧ status &&& 0x006F ≠ 0x0023 ∧
      status &&& 0x006F = 0x0027) ∨
    (status &&& 0x006F ≠ 0x0040 ∧ status &&& 0x006F ≠ 0x0021 ∧ status &&& 0x006F ≠ 0x0023 ∧
      status &&& 0x006F ≠ 0x0027) := by
  by_cases h40 : status &&& 0x006F = 0x0040
  · exact Or.inl h40
  by_cases h21 : status &&& 0x006F = 0x0021
  · exact Or.inr (Or.inl ⟨h40, h21⟩)
  by_cases h23 : status &&& 0x006F = 0x0023
  · exact Or.inr (Or.inr (Or.inl ⟨h40, h21, h23⟩))
  by_cases h27 : status &&& 0x006F = 0x0027
  · exact Or.inr (Or.inr (Or.inr (Or.inl ⟨h40, h21, h23, h27⟩)))
  · exact Or.inr (Or.inr (Or.inr (Or.inr ⟨h40, h21, h23, h27⟩)))

/-- What `cyclicTask` leaves untouched, and its cycle counter. -/
theorem cyclicTask_frame (status : Nat) (position : Int) (c : EtherCatController) :
    (cyclicTask status position c).1.m_connected = c.m_connected ∧
    (cyclicTask status position c).1.m_targetPosition = c.m_targetPosition ∧
    (cyclicTask status position c).1.m_targetVelocity = c.m_targetVelocity ∧
    (cyclicTask status position c).1.m_cycleCount = wrapInt (c.m_cycleCount + 1) := by
  by_cases ht : status &&& 1024 = 0 <;>
    by_cases hm : c.m_motionInProgress = true <;>
    by_cases hp : c.m_commandPending = true <;>
    rcases masked_cases status with h40 | ⟨h40, h21⟩ | ⟨h40, h21, h23⟩ | ⟨h40, h21, h23, h27⟩ |
      ⟨h40, h21, h23, h27⟩ <;>
    by_cases h10 : c.m_cycleCount = 10 <;>
    simp [cyclicTask, targetReachedStep, invokeQueued, stateMachineStep, dispatchStep,
      writeCtrlWord, writeOpMode, writeTargetPos, writeTargetVel, emitSignal,
      ht, hm, hp, h10, *]

/-- A `cyclicTask` that takes the set-point dispatch branch. -/
theorem cyclicTask_dispatch (status : Nat) (position : Int) (c : EtherCatController)
    (h : Dispatches status c) :
    (cyclicTask status position c).1.m_commandPending = false ∧
    (cyclicTask status position c).1.m_motionInProgress = true ∧
    targetWritesOf (cyclicTask status position c).2 =
      [PdWrite.target_pos (toU32 c.m_targetPosition),
       PdWrite.target_vel (toU32 c.m_targetVelocity)] := by
  obtain ⟨h27, hcp, hmip⟩ := h
  revert hcp hmip
  by_cases ht : status &&& 1024 = 0 <;>
    by_cases hm : c.m_motionInProgress = true <;>
    by_cases hp : c.m_commandPending = true <;>
    by_cases h10 : c.m_cycleCount = 10 <;>
    simp [cyclicTask, targetReachedStep, invokeQueued, stateMachineStep, dispatchStep,
      writeCtrlWord, writeOpMode, writeTargetPos, writeTargetVel, emitSignal, targetWritesOf,
      writesOf, Effect.asWrite, PdWrite.isTarget, ht, hm, hp, h27, h10]

/-- A `cyclicTask` that does not take the set-point dispatch branch. -/
theorem cyclicTask_no_dispatch (status : Nat) (position : Int) (c : EtherCatController)
    (h : ¬ Dispatches status c) :
    (cyclicTask status position c).1.m_commandPending = c.m_commandPending ∧
    (cyclicTask status position c).1.m_motionInProgress =
      (if status &&& 1024 = 0 then c.m_motionInProgress else false) ∧
    targetWritesOf (cyclicTask status position c).2 = [] := by
  unfold Dispatches at h
  revert h
  by_cases ht : status &&& 1024 = 0 <;>
    by_cases hm : c.m_motionInProgress = true <;>
    by_cases hp : c.m_commandPending = true <;>
    rcases masked_cases status with h40 | ⟨h40, h21⟩ | ⟨h40, h21, h23⟩ | ⟨h40, h21, h23, h27⟩ |
      ⟨h40, h21, h23, h27⟩ <;>
    by_cases h10 : c.m_cycleCount = 10 <;>
    simp [cyclicTask, targetReachedStep, invokeQueued, stateMachineStep, dispatchStep,
      writeCtrlWord, writeOpMode, writeTargetPos, writeTargetVel, emitSignal, targetWritesOf,
      writesOf, Effect.asWrite, PdWrite.isTarget, ht, hm, hp, h10, *]

/-- The mode-of-operation writes of one `cyclicTask`. -/
theorem cyclicTask_opMode (status : Nat) (position : Int) (c : EtherCatController) :
    opModeWritesOf (cyclicTask status position c).2 =
      (if status &&& 0x006F = 0x0027 ∧ c.m_cycleCount = 10 then [1] else []) := by
  by_cases ht : status &&& 1024 = 0 <;>
    by_cases hm : c.m_motionInProgress = true <;>
    by_cases hp : c.m_commandPending = true <;>
    rcases masked_cases status with h40 | ⟨h40, h21⟩ | ⟨h40, h21, h23⟩ | ⟨h40, h21, h23, h27⟩ |
      ⟨h40, h21, h23, h27⟩ <;>
    by_cases h10 : c.m_cycleCount = 10 <;>
    simp [cyclicTask, targetReachedStep, invokeQueued, stateMachineStep, dispatchStep,
      writeCtrlWord, writeOpMode, writeTargetPos, writeTargetVel, emitSignal, opModeWritesOf,
      writesOf, Effect.asWrite, PdWrite.asOpMode, ht, hm, hp, h10, *]

end EtherCat

namespace EtherCat

/-! ## Whole cycles and runs -/

/-- A whole cycle leaves the control state and the writes of its `cyclicTask`. -/
theorem cycle_frame (status : Nat) (position : Int) (c : EtherCatController) :
    (cycle status position c).1.m_connected = (cyclicTask status position c).1.m_connected ∧
    (cycle status position c).1.m_cycleCount = (cyclicTask status position c).1.m_cycleCount ∧
    (cycle status position c).1.m_commandPending =
      (cyclicTask status position c).1.m_commandPending ∧
    (cycle status position c).1.m_motionInProgress =
      (cyclicTask status position c).1.m_motionInProgress ∧
    (cycle status position c).1.m_targetPosition =
      (cyclicTask status position c).1.m_targetPosition ∧
    (cycle status position c).1.m_targetVelocity =
      (cyclicTask status position c).1.m_targetVelocity ∧
    (cycle status position c).1.pd = (cyclicTask status position c).1.pd ∧
    writesOf (cycle status position c).2 = writesOf (cyclicTask status position c).2 :=
  deliver_frame _ _

theorem runLog_append (a b : List Op) (c : EtherCatController) :
    runLog (a ++ b) c = ((runLog b (runLog a c).1).1, (runLog a c).2 ++ (runLog b (runLog a c).1).2) := by
  induction a generalizing c with
  | nil => simp [runLog]
  | cons op a ih => simp [runLog, ih, List.append_assoc]

theorem run_append (a b : List Op) (c : EtherCatController) :
    run (a ++ b) c = run b (run a c) := by
  simp [run, runLog_append]

theorem run_cons (op : Op) (ops : List Op) (c : EtherCatController) :
    run (op :: ops) c = run ops (step op c).1 := by
  simp [run, runLog]

theorem run_nil (c : EtherCatController) : run [] c = c := rfl

/-- Whether a motion is in progress after one whole call. -/
theorem step_motion (op : Op) (c : EtherCatController) :
    (∀ p v, op = Op.move p v → (step op c).1.m_motionInProgress = c.m_motionInProgress) ∧
    (∀ st pos, op = Op.cycle st pos → Dispatches st c →
      (step op c).1.m_motionInProgress = true ∧ (step op c).1.m_commandPending = false) ∧
    (∀ st pos, op = Op.cycle st pos → ¬ Dispatches st c →
      (step op c).1.m_motionInProgress = (if st &&& 1024 = 0 then c.m_motionInProgress else false) ∧
      (step op c).1.m_commandPending = c.m_commandPending) := by
  refine ⟨?_, ?_, ?_⟩
  · rintro p v rfl
    exact (moveToPosition_frame p v c).1
  · rintro st pos rfl h
    have h1 := cycle_frame st pos c
    have h2 := cyclicTask_dispatch st pos c h
    exact ⟨h1.2.2.2.1.trans h2.2.1, h1.2.2.1.trans h2.1⟩
  · rintro st pos rfl h
    have h1 := cycle_frame st pos c
    have h2 := cyclicTask_no_dispatch st pos c h
    exact ⟨h1.2.2.2.1.trans h2.2.1, h1.2.2.1.trans h2.1⟩

/-- A dispatch that starts with a motion in progress needs a pending request. -/
theorem Dispatches.pending {status : Nat} {c : EtherCatController} (h : Dispatches status c) :
    c.m_commandPending = true := by
  obtain ⟨_, hcp, _⟩ := h
  revert hcp
  by_cases ht : status &&& 1024 = 0 <;> by_cases hm : c.m_motionInProgress = true <;>
    by_cases hp : c.m_commandPending = true <;>
    simp [targetReachedStep, invokeQueued, writeCtrlWord, emitSignal, ht, hm, hp]

/-- The lifecycle invariant is kept by every whole call: while a motion is in progress no
request is pending. -/
theorem step_invariant (op : Op) (c : EtherCatController)
    (h : c.m_motionInProgress = true → c.m_commandPending = false) :
    (step op c).1.m_motionInProgress = true → (step op c).1.m_commandPending = false := by
  cases op with
  | move p v =>
    intro hm
    have hf := (moveToPosition_frame p v c).1
    have hm2 : c.m_motionInProgress = true := by
      rw [← hf]; exact hm
    have hr := (moveToPosition_rejected p v c (Or.inr hm2)).1
    show (moveToPosition p v c).1.m_commandPending = false
    rw [hr]; exact h hm2
  | cycle st pos =>
    intro hm
    by_cases hd : Dispatches st c
    · exact ((step_motion (Op.cycle st pos) c).2.1 st pos rfl hd).2
    · have h3 := (step_motion (Op.cycle st pos) c).2.2 st pos rfl hd
      rw [h3.1] at hm
      rw [h3.2]
      apply h
      split_ifs at hm with h0
      exact hm

theorem run_invariant (ops : List Op) (c : EtherCatController)
    (h : c.m_motionInProgress = true → c.m_commandPending = false) :
    (run ops c).m_motionInProgress = true → (run ops c).m_commandPending = false := by
  induction ops generalizing c with
  | nil => exact h
  | cons op ops ih =>
    rw [run_cons]
    exact ih _ (step_invariant op c h)

theorem Reachable.invariant {c : EtherCatController} (h : Reachable c) :
    c.m_motionInProgress = true → c.m_commandPending = false := by
  obtain ⟨api, ops, hok, rfl⟩ := h
  rw [initialise_ok api hok]
  exact run_invariant ops ready (by decide)

/-- The published fields, queued calls and direct signals of one `cyclicTask`. -/
theorem cyclicTask_published (status : Nat) (position : Int) (c : EtherCatController) :
    (cyclicTask status position c).1.m_actualPosition = c.m_actualPosition ∧
    (cyclicTask status position c).1.m_statusWord = c.m_statusWord ∧
    queuedOf (cyclicTask status position c).2 =
      (if ¬ status &&& 1024 = 0 ∧ c.m_motionInProgress = true then
        [Queued.setStatusMessage
          (if c.m_commandPending = true then "Target reached - executing pending command"
            else "Target position reached, ready for new command")]
       else []) ++
      [Queued.updateActualPosition position, Queued.updateStatusWord (statusHex status)] ∧
    signalsOf (cyclicTask status position c).2 =
      (if ¬ status &&& 1024 = 0 ∧ c.m_motionInProgress = true then
        [Signal.readyForCommandChanged true] else []) := by
  by_cases ht : status &&& 1024 = 0 <;>
    by_cases hm : c.m_motionInProgress = true <;>
    by_cases hp : c.m_commandPending = true <;>
    rcases masked_cases status with h40 | ⟨h40, h21⟩ | ⟨h40, h21, h23⟩ | ⟨h40, h21, h23, h27⟩ |
      ⟨h40, h21, h23, h27⟩ <;>
    by_cases h10 : c.m_cycleCount = 10 <;>
    simp [cyclicTask, targetReachedStep, invokeQueued, stateMachineStep, dispatchStep,
      writeCtrlWord, writeOpMode, writeTargetPos, writeTargetVel, emitSignal, queuedOf,
      signalsOf, Effect.asQueued, Effect.asSignal, ht, hm, hp, h10, *]

/-- The signals of a whole cycle: those of the target-reached handling, then the change
signals of the two published values. -/
theorem cycle_signals (status : Nat) (position : Int) (c : EtherCatController) :
    signalsOf (cycle status position c).2 =
      (if ¬ status &&& 1024 = 0 ∧ c.m_motionInProgress = true then
        [Signal.readyForCommandChanged true,
         Signal.statusMessageChanged
          (if c.m_commandPending = true then "Target reached - executing pending command"
            else "Target position reached, ready for new command")]
       else []) ++
      (if position ≠ c.m_actualPosition then [Signal.actualPositionChanged position] else []) ++
      (if statusHex status ≠ c.m_statusWord then [Signal.statusWordChanged (statusHex status)]
       else []) ∧
    (cycle status position c).1.m_actualPosition = position ∧
    (cycle status position c).1.m_statusWord = statusHex status := by
  obtain ⟨h1, h2, h3, h4⟩ := cyclicTask_published status position c
  unfold cycle
  simp only []
  rw [h3]
  generalize cyclicTask status position c = m at h1 h2 h4 ⊢
  obtain ⟨d, l⟩ := m
  simp only at h1 h2 h4
  by_cases hq : position = c.m_actualPosition <;>
    by_cases hw : statusHex status = c.m_statusWord <;>
    by_cases hcl : ¬ status &&& 1024 = 0 ∧ c.m_motionInProgress = true <;>
    simp [deliver, runQueued, updateActualPosition, updateStatusWord, setStatusMessage,
      emitSignal, signalsOf_append, h1, h2, h4, hq, hw, hcl] <;>
    simp [signalsOf, Effect.asSignal, hq, hw]

/-! ## C3: target reached while a motion is in progress -/

/-- C3: in every state reachable from the constructed controller by a successful `initialize`
and whole `moveToPosition` calls and cycles, a `cyclicTask` that reads a status word with
bit 10 set while `m_motionInProgress` is true ends with `m_motionInProgress` false, has written
control word `0x000F` to the domain buffer, and has emitted `readyForCommandChanged(true)`. -/
theorem C3_target_reached_clears_motion (c : EtherCatController) (status : Nat)
    (position : Int) (hr : Reachable c) (hb : (status &&& (1 <<< 10)) ≠ 0)
    (hm : c.m_motionInProgress = true) :
    (cyclicTask status position c).1.m_motionInProgress = false ∧
    0x000F ∈ ctrlWritesOf (cyclicTask status position c).2 ∧
    Signal.readyForCommandChanged true ∈ signalsOf (cyclicTask status position c).2 ∧
    (cycle status position c).1.m_motionInProgress = false := by
  have hp : c.m_commandPending = false := hr.invariant hm
  have ht : ¬ status &&& 1024 = 0 := hb
  have key : (cyclicTask status position c).1.m_motionInProgress = false ∧
      0x000F ∈ ctrlWritesOf (cyclicTask status position c).2 ∧
      Signal.readyForCommandChanged true ∈ signalsOf (cyclicTask status position c).2 := by
    rcases masked_cases status with h40 | ⟨h40, h21⟩ | ⟨h40, h21, h23⟩ | ⟨h40, h21, h23, h27⟩ |
      ⟨h40, h21, h23, h27⟩ <;>
    by_cases h10 : c.m_cycleCount = 10 <;>
    simp [cyclicTask, targetReachedStep, invokeQueued, stateMachineStep, dispatchStep,
      writeCtrlWord, writeOpMode, writeTargetPos, writeTargetVel, emitSignal, ctrlWritesOf,
      signalsOf, writesOf, Effect.asWrite, Effect.asSignal, PdWrite.asCtrl, ht, hm, hp, h10, *]
  exact ⟨key.1, key.2.1, key.2.2, (cycle_frame status position c).2.2.2.1.trans key.1⟩

/-- C3 at the reachable controller `busy` and the status word `0x0427` (operation enabled,
target reached). -/
theorem C3_target_reached_clears_motion_witness :
    (cyclicTask 0x0427 0 busy).1.m_motionInProgress = false ∧
    0x000F ∈ ctrlWritesOf (cyclicTask 0x0427 0 busy).2 ∧
    Signal.readyForCommandChanged true ∈ signalsOf (cyclicTask 0x0427 0 busy).2 ∧
    (cycle 0x0427 0 busy).1.m_motionInProgress = false :=
  C3_target_reached_clears_motion busy 0x0427 0
    ⟨okApi, [Op.move 1 1, Op.cycle 0x0027 0], rfl, rfl⟩ (by decide) (by decide)

/-! ## C10: change notifications -/

/-- C10 (claim as stated fails): a second rejected `moveToPosition` on the constructed
controller emits `statusMessageChanged` although the message is unchanged; the dispatching
cycle turns `isReadyForCommand` from true to false without any `readyForCommandChanged`; and
`shutdown` of the never-connected controller emits `connectedChanged(false)` although
`m_connected` stays false. -/
theorem C10_notifications_not_change_only :
    (moveToPosition 1 1 construct).1.m_statusMessage = "EtherCAT not connected" ∧
    (moveToPosition 1 1 (moveToPosition 1 1 construct).1).1.m_statusMessage
      = "EtherCAT not connected" ∧
    signalsOf (moveToPosition 1 1 (moveToPosition 1 1 construct).1).2
      = [Signal.statusMessageChanged "EtherCAT not connected"] ∧
    isReadyForCommand (moveToPosition 1 1 ready).1 = true ∧
    isReadyForCommand (cycle 0x0027 0 (moveToPosition 1 1 ready).1).1 = false ∧
    signalsOf (cycle 0x0027 0 (moveToPosition 1 1 ready).1).2
      = [Signal.statusWordChanged "0X0027"] ∧
    construct.m_connected = false ∧ (shutdown construct).1.m_connected = false ∧
    signalsOf (shutdown construct).2
      = [Signal.connectedChanged false, Signal.statusMessageChanged "EtherCAT disconnected"] := by
  decide

/-- C10 (amended): `updateActualPosition` and `updateStatusWord` store the new value and emit
their change signal if and only if the new value differs from the stored one, so a whole cycle
emits `actualPositionChanged` / `statusWordChanged` exactly when the position / status text it
read differs from the published one; `setStatusMessage` stores the message and emits
`statusMessageChanged` on every call. -/
theorem C10_change_only_position_and_status_word (c : EtherCatController) (status : Nat)
    (position : Int) (statusWord msg : String) :
    signalsOf (updateActualPosition position (c, [])).2 =
      (if position ≠ c.m_actualPosition then [Signal.actualPositionChanged position] else []) ∧
    (updateActualPosition position (c, [])).1.m_actualPosition = position ∧
    signalsOf (updateStatusWord statusWord (c, [])).2 =
      (if statusWord ≠ c.m_statusWord then [Signal.statusWordChanged statusWord] else []) ∧
    (updateStatusWord statusWord (c, [])).1.m_statusWord = statusWord ∧
    signalsOf (setStatusMessage msg (c, [])).2 = [Signal.statusMessageChanged msg] ∧
    (setStatusMessage msg (c, [])).1.m_statusMessage = msg ∧
    (∀ p, Signal.actualPositionChanged p ∈ signalsOf (cycle status position c).2 ↔
      (p = position ∧ position ≠ c.m_actualPosition)) ∧
    (∀ w, Signal.statusWordChanged w ∈ signalsOf (cycle status position c).2 ↔
      (w = statusHex status ∧ statusHex status ≠ c.m_statusWord)) ∧
    (cycle status position c).1.m_actualPosition = position ∧
    (cycle status position c).1.m_statusWord = statusHex status := by
  refine ⟨?_, ?_, ?_, ?_, ?_, ?_, ?_, ?_, ?_, ?_⟩
  · by_cases h : position = c.m_actualPosition <;>
      simp [updateActualPosition, emitSignal, signalsOf, Effect.asSignal, h]
  · by_cases h : position = c.m_actualPosition <;>
      simp [updateActualPosition, emitSignal, h]
  · by_cases h : statusWord = c.m_statusWord <;>
      simp [updateStatusWord, emitSignal, signalsOf, Effect.asSignal, h]
  · by_cases h : statusWord = c.m_statusWord <;>
      simp [updateStatusWord, emitSignal, h]
  · simp [setStatusMessage, emitSignal, signalsOf, Effect.asSignal]
  · simp [setStatusMessage, emitSignal]
  · intro p
    rw [(cycle_signals status position c).1]
    by_cases hq : position = c.m_actualPosition <;>
      by_cases hw : statusHex status = c.m_statusWord <;>
      by_cases hcl : ¬ status &&& 1024 = 0 ∧ c.m_motionInProgress = true <;>
      simp [hq, hw, hcl]
  · intro w
    rw [(cycle_signals status position c).1]
    by_cases hq : position = c.m_actualPosition <;>
      by_cases hw : statusHex status = c.m_statusWord <;>
      by_cases hcl : ¬ status &&& 1024 = 0 ∧ c.m_motionInProgress = true <;>
      simp [hq, hw, hcl]
  · exact (cycle_signals status position c).2.1
  · exact (cycle_signals status position c).2.2

end EtherCat

namespace EtherCat

/-! ## C6: at most one motion in flight -/

/-- The set-point dispatch branch is taken exactly when the cycle writes `0x005F`. -/
theorem dispatches_iff_setpoint (status : Nat) (position : Int) (c : EtherCatController) :
    Dispatches status c ↔ 0x005F ∈ ctrlWritesOf (cyclicTask status position c).2 := by
  unfold Dispatches
  by_cases ht : status &&& 1024 = 0 <;>
    by_cases hm : c.m_motionInProgress = true <;>
    by_cases hp : c.m_commandPending = true <;>
    rcases masked_cases status with h40 | ⟨h40, h21⟩ | ⟨h40, h21, h23⟩ | ⟨h40, h21, h23, h27⟩ |
      ⟨h40, h21, h23, h27⟩ <;>
    by_cases h10 : c.m_cycleCount = 10 <;>
    simp [cyclicTask, targetReachedStep, invokeQueued, stateMachineStep, dispatchStep,
      writeCtrlWord, writeOpMode, writeTargetPos, writeTargetVel, emitSignal, ctrlWritesOf,
      writesOf, Effect.asWrite, PdWrite.asCtrl, ht, hm, hp, h10, *]

/-- Only a dispatching cycle turns `m_motionInProgress` from false to true. -/
theorem step_sets_motion (op : Op) (c : EtherCatController)
    (h0 : c.m_motionInProgress = false) (h1 : (step op c).1.m_motionInProgress = true) :
    ∃ st pos, op = Op.cycle st pos ∧ st &&& 0x006F = 0x0027 ∧ c.m_commandPending = true ∧
      Dispatches st c := by
  cases op with
  | move p v =>
    have h := (step_motion (Op.move p v) c).1 p v rfl
    rw [h, h0] at h1
    exact absurd h1 (by simp)
  | cycle st pos =>
    by_cases hd : Dispatches st c
    · exact ⟨st, pos, rfl, hd.1, hd.pending, hd⟩
    · have h := ((step_motion (Op.cycle st pos) c).2.2 st pos rfl hd).1
      rw [h, h0] at h1
      simp at h1

/-- If a motion is in progress before a run and not after it, some cycle of the run observed
bit 10 while the motion was in progress and cleared it. -/
theorem motion_cleared_within (b : List Op) (c : EtherCatController)
    (h0 : c.m_motionInProgress = true) (h1 : (run b c).m_motionInProgress = false) :
    ∃ b1 st pos b2, b = b1 ++ Op.cycle st pos :: b2 ∧ ClearsMotion st (run b1 c) ∧
      (run (b1 ++ [Op.cycle st pos]) c).m_motionInProgress = false := by
  induction b generalizing c with
  | nil =>
    rw [run_nil, h0] at h1
    exact absurd h1 (by simp)
  | cons op b ih =>
    by_cases hs : (step op c).1.m_motionInProgress = true
    · rw [run_cons] at h1
      obtain ⟨b1, st, pos, b2, hb, hcl, hm⟩ := ih _ hs h1
      refine ⟨op :: b1, st, pos, b2, by simp [hb], ?_, ?_⟩
      · rw [run_cons]; exact hcl
      · rw [List.cons_append, run_cons]; exact hm
    · have hs2 : (step op c).1.m_motionInProgress = false := by
        cases hx : (step op c).1.m_motionInProgress
        · rfl
        · exact absurd hx hs
      cases op with
      | move p v =>
        have h := (step_motion (Op.move p v) c).1 p v rfl
        rw [h, h0] at hs2
        exact absurd hs2 (by simp)
      | cycle st pos =>
        have hd : ¬ Dispatches st c := fun hd =>
          hs ((step_motion (Op.cycle st pos) c).2.1 st pos rfl hd).1
        have h := ((step_motion (Op.cycle st pos) c).2.2 st pos rfl hd).1
        have ht : ¬ st &&& 1024 = 0 := by
          intro ht
          rw [h, if_pos ht, h0] at hs2
          exact absurd hs2 (by simp)
        refine ⟨[], st, pos, b, rfl, ⟨ht, h0⟩, ?_⟩
        rw [List.nil_append, run_cons, run_nil]
        exact hs2

/-- C6: starting from the constructed controller after a successful `initialize`, in every
sequence of whole `moveToPosition` calls and cycles: (a) a call that turns `m_motionInProgress`
from false to true is a cycle whose masked status is `0x27` and which found `m_commandPending`
true and `m_motionInProgress` false (the set-point dispatch); (b) `moveToPosition` never
changes `m_motionInProgress`; (c) between any two dispatching cycles there is a cycle that
observed status bit 10 set while the motion was in progress and cleared `m_motionInProgress`. -/
theorem C6_at_most_one_motion_in_flight (api : MasterApi)
    (hok : (initialise api construct).2 = true) :
    (∀ (ops : List Op) (op : Op),
      (run ops (initialise api construct).1.1).m_motionInProgress = false →
      (step op (run ops (initialise api construct).1.1)).1.m_motionInProgress = true →
      ∃ st pos, op = Op.cycle st pos ∧ st &&& 0x006F = 0x0027 ∧
        (run ops (initialise api construct).1.1).m_commandPending = true ∧
        Dispatches st (run ops (initialise api construct).1.1)) ∧
    (∀ (ops : List Op) (p v : Int),
      (moveToPosition p v (run ops (initialise api construct).1.1)).1.m_motionInProgress =
        (run ops (initialise api construct).1.1).m_motionInProgress) ∧
    (∀ (a b : List Op) (st1 : Nat) (pos1 : Int) (st2 : Nat),
      Dispatches st1 (run a (initialise api construct).1.1) →
      Dispatches st2 (run (a ++ Op.cycle st1 pos1 :: b) (initialise api construct).1.1) →
      ∃ b1 st pos b2, b = b1 ++ Op.cycle st pos :: b2 ∧
        ClearsMotion st (run (a ++ Op.cycle st1 pos1 :: b1) (initialise api construct).1.1) ∧
        (run (a ++ Op.cycle st1 pos1 :: (b1 ++ [Op.cycle st pos]))
          (initialise api construct).1.1).m_motionInProgress = false) := by
  refine ⟨fun ops op h0 h1 => step_sets_motion op _ h0 h1,
    fun ops p v => (moveToPosition_frame p v _).1, ?_⟩
  intro a b st1 pos1 st2 hd1 hd2
  have hr : Reachable (run (a ++ Op.cycle st1 pos1 :: b) (initialise api construct).1.1) :=
    ⟨api, _, hok, rfl⟩
  have hidle : (run (a ++ Op.cycle st1 pos1 :: b)
      (initialise api construct).1.1).m_motionInProgress = false := by
    cases hx : (run (a ++ Op.cycle st1 pos1 :: b)
      (initialise api construct).1.1).m_motionInProgress
    · rfl
    · have h1 := hr.invariant hx
      rw [hd2.pending] at h1
      exact absurd h1 (by simp)
  rw [run_append, run_cons] at hidle
  have hset := ((step_motion (Op.cycle st1 pos1) (run a (initialise api construct).1.1)).2.1
    st1 pos1 rfl hd1).1
  obtain ⟨b1, st, pos, b2, hb, hcl, hm⟩ := motion_cleared_within b _ hset hidle
  refine ⟨b1, st, pos, b2, hb, ?_, ?_⟩
  · rw [run_append, run_cons]; exact hcl
  · rw [run_append, run_cons]; exact hm

/-- C6 on the run `moveToPosition(1,1)`, dispatching cycle, cycle reading `0x0427`,
`moveToPosition(2,2)`, dispatching cycle: a clearing cycle lies between the two dispatches. -/
theorem C6_at_most_one_motion_in_flight_witness :
    (initialise okApi construct).2 = true ∧
    ∃ b1 st pos b2, [Op.cycle 0x0427 0, Op.move 2 2] = b1 ++ Op.cycle st pos :: b2 ∧
      ClearsMotion st
        (run ([Op.move 1 1] ++ Op.cycle 0x0027 0 :: b1) (initialise okApi construct).1.1) ∧
      (run ([Op.move 1 1] ++ Op.cycle 0x0027 0 :: (b1 ++ [Op.cycle st pos]))
        (initialise okApi construct).1.1).m_motionInProgress = false :=
  ⟨by decide,
    (C6_at_most_one_motion_in_flight okApi (by decide)).2.2 [Op.move 1 1]
      [Op.cycle 0x0427 0, Op.move 2 2] 0x0027 0 0x0027
      ⟨by decide, by decide, by decide⟩ ⟨by decide, by decide, by decide⟩⟩

/-! ## C7: last write wins -/

theorem runLog_cons (op : Op) (ops : List Op) (c : EtherCatController) :
    runLog (op :: ops) c = ((runLog ops (step op c).1).1, (step op c).2 ++ (runLog ops (step op c).1).2) :=
  rfl

theorem cycles_cons (x : Nat × Int) (cs : List (Nat × Int)) :
    cycles (x :: cs) = Op.cycle x.1 x.2 :: cycles cs := rfl

/-- The target writes of a whole cycle are those of its `cyclicTask`. -/
theorem cycle_targetWrites (status : Nat) (position : Int) (c : EtherCatController) :
    targetWritesOf (cycle status position c).2 =
      targetWritesOf (cyclicTask status position c).2 := by
  unfold targetWritesOf
  rw [(cycle_frame status position c).2.2.2.2.2.2.2]

/-- Cycles whose masked status is not `0x27`, run while no motion is in progress, keep the
mailbox and the flags and write no target. -/
theorem idle_cycles (cs : List (Nat × Int)) (c : EtherCatController)
    (hs : ∀ x ∈ cs, x.1 &&& 0x006F ≠ 0x0027) (hm : c.m_motionInProgress = false) :
    (runLog (cycles cs) c).1.m_motionInProgress = false ∧
    (runLog (cycles cs) c).1.m_commandPending = c.m_commandPending ∧
    (runLog (cycles cs) c).1.m_targetPosition = c.m_targetPosition ∧
    (runLog (cycles cs) c).1.m_targetVelocity = c.m_targetVelocity ∧
    (runLog (cycles cs) c).1.m_connected = c.m_connected ∧
    targetWritesOf (runLog (cycles cs) c).2 = [] := by
  induction cs generalizing c with
  | nil => simp [cycles, runLog, hm, targetWritesOf, writesOf]
  | cons x cs ih =>
    have hx : x.1 &&& 0x006F ≠ 0x0027 := hs x (List.mem_cons_self _ _)
    have hd : ¬ Dispatches x.1 c := fun hd => hx hd.1
    have hf := cycle_frame x.1 x.2 c
    have hn := cyclicTask_no_dispatch x.1 x.2 c hd
    have hk := cyclicTask_frame x.1 x.2 c
    have hm1 : (step (Op.cycle x.1 x.2) c).1.m_motionInProgress = false := by
      show (cycle x.1 x.2 c).1.m_motionInProgress = false
      rw [hf.2.2.2.1, hn.2.1, hm]; simp
    obtain ⟨i1, i2, i3, i4, i5, i6⟩ :=
      ih (step (Op.cycle x.1 x.2) c).1 (fun y hy => hs y (List.mem_cons_of_mem _ hy)) hm1
    rw [cycles_cons, runLog_cons]
    refine ⟨i1, i2.trans ?_, i3.trans ?_, i4.trans ?_, i5.trans ?_, ?_⟩
    · show (cycle x.1 x.2 c).1.m_commandPending = _
      rw [hf.2.2.1, hn.1]
    · show (cycle x.1 x.2 c).1.m_targetPosition = _
      rw [hf.2.2.2.2.1, hk.2.1]
    · show (cycle x.1 x.2 c).1.m_targetVelocity = _
      rw [hf.2.2.2.2.2.1, hk.2.2.1]
    · show (cycle x.1 x.2 c).1.m_connected = _
      rw [hf.1, hk.1]
    · show targetWritesOf ((cycle x.1 x.2 c).2 ++ _) = []
      rw [targetWritesOf_append, i6, cycle_targetWrites, hn.2.2]
      rfl

/-- Cycles run while no request is pending write no target. -/
theorem no_pending_cycles (cs : List (Nat × Int)) (c : EtherCatController)
    (hp : c.m_commandPending = false) :
    targetWritesOf (runLog (cycles cs) c).2 = [] := by
  induction cs generalizing c with
  | nil => simp [cycles, runLog, targetWritesOf, writesOf]
  | cons x cs ih =>
    have hd : ¬ Dispatches x.1 c := fun hd => by
      have := hd.pending
      rw [hp] at this
      exact absurd this (by simp)
    have hf := cycle_frame x.1 x.2 c
    have hn := cyclicTask_no_dispatch x.1 x.2 c hd
    have hp1 : (step (Op.cycle x.1 x.2) c).1.m_commandPending = false := by
      show (cycle x.1 x.2 c).1.m_commandPending = false
      rw [hf.2.2.1, hn.1, hp]
    rw [cycles_cons, runLog_cons]
    show targetWritesOf ((cycle x.1 x.2 c).2 ++ _) = []
    rw [targetWritesOf_append, ih _ hp1, cycle_targetWrites, hn.2.2]
    rfl

/-- C7 (claim as stated fails): on the connected controller `busy` (motion in progress) the
calls `moveToPosition(5, 6)` and `moveToPosition(7, 8)` with no cycle between them are both
rejected. The following cycles (target reached, then two Operation-Enabled cycles) dispatch
nothing, so no dispatch results from the two calls; and the next dispatch, after a later
`moveToPosition(3, 4)`, writes `(3, 4)`, not `(7, 8)`. -/
theorem C7_rejected_requests_never_dispatched :
    busy.m_connected = true ∧
    targetWritesOf (runLog [Op.move 5 6, Op.move 7 8, Op.cycle 0x0427 0, Op.cycle 0x0027 0,
      Op.cycle 0x0027 0] busy).2 = [] ∧
    targetWritesOf (runLog [Op.move 5 6, Op.move 7 8, Op.cycle 0x0427 0, Op.cycle 0x0027 0,
      Op.cycle 0x0027 0, Op.move 3 4, Op.cycle 0x0027 0] busy).2 =
      [PdWrite.target_pos 3, PdWrite.target_vel 4] := by
  decide

/-- C7 (amended): on a connected controller with `m_motionInProgress` false, after
`moveToPosition(p1, v1)`, cycles whose masked status is not `0x27`, `moveToPosition(p2, v2)`
and again cycles whose masked status is not `0x27`, the first cycle with masked status `0x27`
dispatches `(p2, v2)`; over the whole run, continued by any further cycles, the writes to the
target slots are exactly target position `p2` then target velocity `v2`: one dispatch, and
`(p1, v1)` is not written. -/
theorem C7_last_write_wins (c : EtherCatController) (p1 v1 p2 v2 : Int)
    (cs1 cs2 cs3 : List (Nat × Int)) (st : Nat) (pos : Int)
    (hc : c.m_connected = true) (hm : c.m_motionInProgress = false)
    (h1 : ∀ x ∈ cs1, x.1 &&& 0x006F ≠ 0x0027) (h2 : ∀ x ∈ cs2, x.1 &&& 0x006F ≠ 0x0027)
    (hs : st &&& 0x006F = 0x0027) :
    targetWritesOf (runLog (Op.move p1 v1 :: (cycles cs1 ++ Op.move p2 v2 ::
        (cycles cs2 ++ Op.cycle st pos :: cycles cs3))) c).2 =
      [PdWrite.target_pos (toU32 p2), PdWrite.target_vel (toU32 v2)] ∧
    targetWritesOf (runLog (Op.move p1 v1 :: (cycles cs1 ++ Op.move p2 v2 :: cycles cs2)) c).2
      = [] ∧
    Dispatches st (run (Op.move p1 v1 :: (cycles cs1 ++ Op.move p2 v2 :: cycles cs2)) c) := by
  -- first call
  have a0 := moveToPosition_frame p1 v1 c
  have hA : targetWritesOf (moveToPosition p1 v1 c).2 = [] := by
    unfold targetWritesOf; rw [a0.2.2.2.2]; rfl
  -- cycles between the calls
  have b0 := idle_cycles cs1 (moveToPosition p1 v1 c).1 h1 (a0.1.trans hm)
  -- second call
  have c0 := moveToPosition_frame p2 v2 (runLog (cycles cs1) (moveToPosition p1 v1 c).1).1
  have c1 := moveToPosition_accepted p2 v2 (runLog (cycles cs1) (moveToPosition p1 v1 c).1).1
    (b0.2.2.2.2.1.trans (a0.2.1.trans hc)) b0.1
  have hC : targetWritesOf
      (moveToPosition p2 v2 (runLog (cycles cs1) (moveToPosition p1 v1 c).1).1).2 = [] := by
    unfold targetWritesOf; rw [c0.2.2.2.2]; rfl
  -- cycles after the second call
  have d0 := idle_cycles cs2
    (moveToPosition p2 v2 (runLog (cycles cs1) (moveToPosition p1 v1 c).1).1).1 h2
    (c0.1.trans b0.1)
  -- the dispatching cycle
  have hD : Dispatches st (runLog (cycles cs2)
      (moveToPosition p2 v2 (runLog (cycles cs1) (moveToPosition p1 v1 c).1).1).1).1 := by
    refine ⟨hs, ?_, ?_⟩
    · simp [targetReachedStep, d0.1, d0.2.1, c1.1]
    · simp [targetReachedStep, d0.1]
  have e0 := cyclicTask_dispatch st pos _ hD
  have e1 := cycle_frame st pos (runLog (cycles cs2)
      (moveToPosition p2 v2 (runLog (cycles cs1) (moveToPosition p1 v1 c).1).1).1).1
  have f0 := no_pending_cycles cs3 (cycle st pos (runLog (cycles cs2)
      (moveToPosition p2 v2 (runLog (cycles cs1) (moveToPosition p1 v1 c).1).1).1).1).1
      (e1.2.2.1.trans e0.1)
  refine ⟨?_, ?_, ?_⟩
  · simp only [runLog_cons, runLog_append, step, targetWritesOf_append, hA, b0.2.2.2.2.2, hC,
      d0.2.2.2.2.2, f0, cycle_targetWrites, e0.2.2, d0.2.2.1, d0.2.2.2.1, c1.2.1, c1.2.2,
      List.nil_append, List.append_nil]
  · simp only [runLog_cons, runLog_append, step, targetWritesOf_append, hA, b0.2.2.2.2.2, hC,
      d0.2.2.2.2.2, List.nil_append]
  · simpa only [run, runLog_cons, runLog_append, step] using hD

/-- C7 (amended) on the initialised controller: `(5, 6)`, a Switched-On cycle, `(7, 8)`, a
Switched-On cycle, then the dispatching cycle and one more cycle. -/
theorem C7_last_write_wins_witness :
    targetWritesOf (runLog (Op.move 5 6 :: (cycles [(0x0023, 0)] ++ Op.move 7 8 ::
        (cycles [(0x0023, 0)] ++ Op.cycle 0x0027 0 :: cycles [(0x0027, 0)]))) ready).2 =
      [PdWrite.target_pos 7, PdWrite.target_vel 8] :=
  (C7_last_write_wins ready 5 6 7 8 [(0x0023, 0)] [(0x0023, 0)] [(0x0027, 0)] 0x0027 0
    (by decide) (by decide) (by decide) (by decide) (by decide)).1

/-! ## C9: the mode-of-operation write -/

theorem wrapInt_succ (k : Nat) (h : k + 1 < 2147483648) : wrapInt ((k : Int) + 1) = ((k + 1 : Nat) : Int) := by
  unfold wrapInt
  omega

/-- The mode-of-operation writes of a run that starts with cycle counter `k`: one write of `1`
when the cycle with counter value 10 belongs to the run and reads masked status `0x27`. -/
theorem runLog_opMode (ops : List Op) (c : EtherCatController) (k : Nat)
    (hk : c.m_cycleCount = (k : Int)) (hlen : k + (statusesOf ops).length < 2147483648) :
    opModeWritesOf (runLog ops c).2 =
      (if k ≤ 10 ∧ 10 - k < (statusesOf ops).length ∧
          (statusesOf ops).getD (10 - k) 0 &&& 0x006F = 0x0027 then [1] else []) := by
  induction ops generalizing c k with
  | nil => simp [runLog, statusesOf, opModeWritesOf, writesOf]
  | cons op ops ih =>
    cases op with
    | move p v =>
      have hf := moveToPosition_frame p v c
      have h0 : opModeWritesOf (moveToPosition p v c).2 = [] := by
        unfold opModeWritesOf; rw [hf.2.2.2.2]; rfl
      have hi := ih (moveToPosition p v c).1 k (hf.2.2.1.trans hk) (by simpa [statusesOf] using hlen)
      rw [runLog_cons]
      show opModeWritesOf ((moveToPosition p v c).2 ++ (runLog ops (moveToPosition p v c).1).2) = _
      rw [opModeWritesOf_append, h0, hi]
      simp [statusesOf]
    | cycle st pos =>
      have hlen2 : k + 1 + (statusesOf ops).length < 2147483648 := by
        simp [statusesOf] at hlen; omega
      have hf := cycle_frame st pos c
      have hc := cyclicTask_frame st pos c
      have hcount : (cycle st pos c).1.m_cycleCount = ((k + 1 : Nat) : Int) := by
        rw [hf.2.1, hc.2.2.2, hk]
        exact wrapInt_succ k (by omega)
      have h0 : opModeWritesOf (cycle st pos c).2 =
          (if st &&& 0x006F = 0x0027 ∧ c.m_cycleCount = 10 then [1] else []) := by
        unfold opModeWritesOf
        rw [hf.2.2.2.2.2.2.2]
        exact cyclicTask_opMode st pos c
      have hi := ih (cycle st pos c).1 (k + 1) hcount hlen2
      rw [runLog_cons]
      show opModeWritesOf ((cycle st pos c).2 ++ (runLog ops (cycle st pos c).1).2) = _
      rw [opModeWritesOf_append, h0, hi, hk]
      rcases Nat.lt_trichotomy k 10 with hlt | heq | hgt
      · have hne : ¬ ((k : Int) = 10) := by omega
        have e : 10 - k = (10 - (k + 1)) + 1 := by omega
        have hle : k + 1 ≤ 10 := by omega
        have hle2 : k ≤ 10 := by omega
        simp only [hne, and_false, if_false, List.nil_append, statusesOf, List.length_cons, hle,
          hle2, true_and]
        rw [e, List.getD_cons_succ]
        simp only [Nat.add_lt_add_iff_right]
      · subst heq
        simp [statusesOf]
      · have hne : ¬ ((k : Int) = 10) := by omega
        have h1 : ¬ k ≤ 10 := by omega
        have h2 : ¬ k + 1 ≤ 10 := by omega
        simp [hne, h1, h2]

/-- C9 (claim as stated fails): a run of 11 cycles after a successful `initialize` in which the
drive reports `0x0040` in every cycle never writes the mode-of-operation byte. -/
theorem C9_op_mode_never_written :
    (initialise okApi construct).2 = true ∧
    (List.replicate 11 (Op.cycle 0x0040 0)).length = 11 ∧
    opModeWritesOf
      (runLog (List.replicate 11 (Op.cycle 0x0040 0)) (initialise okApi construct).1.1).2
      = [] := by
  decide

/-- C9 (amended): over a run after a successful `initialize` of the constructed controller that
lasts more than 10 and fewer than 2^31 cycles (interleaved with any `moveToPosition` calls),
the mode-of-operation byte is written once, with value 1, if the status word read by the
eleventh cycle (cycle counter 10) has masked value `(status & 0x6F) = 0x27`, and is not written
at all otherwise. -/
theorem C9_op_mode_written_at_cycle_10 (api : MasterApi) (ops : List Op)
    (hok : (initialise api construct).2 = true)
    (h10 : 10 < (statusesOf ops).length) (hlen : (statusesOf ops).length < 2147483648) :
    opModeWritesOf (runLog ops (initialise api construct).1.1).2 =
      (if (statusesOf ops).getD 10 0 &&& 0x006F = 0x0027 then [1] else []) := by
  rw [initialise_ok api hok]
  have h := runLog_opMode ops ready 0 (by decide) (by omega)
  rw [h]
  simp [h10]

/-- C9 (amended) on two runs of 11 cycles: ten Switched-On cycles followed by an
Operation-Enabled cycle write the mode once; eleven Switch-On-Disabled cycles never do. -/
theorem C9_op_mode_written_at_cycle_10_witness :
    opModeWritesOf (runLog (List.replicate 10 (Op.cycle 0x0023 0) ++ [Op.cycle 0x0027 0])
      (initialise okApi construct).1.1).2 = [1] ∧
    opModeWritesOf (runLog (List.replicate 11 (Op.cycle 0x0040 0))
      (initialise okApi construct).1.1).2 = [] :=
  ⟨C9_op_mode_written_at_cycle_10 okApi
      (List.replicate 10 (Op.cycle 0x0023 0) ++ [Op.cycle 0x0027 0])
      (by decide) (by decide) (by decide),
    C9_op_mode_written_at_cycle_10 okApi (List.replicate 11 (Op.cycle 0x0040 0))
      (by decide) (by decide) (by decide)⟩

end EtherCat
